import Mathlib

/-!
Verification of the core of claude-max-api-proxy: the model alias
resolver (src/adapter/openai-to-cli.ts), the request encoder, the
response decoder (src/adapter/cli-to-openai.ts), and the Claude CLI
subprocess manager's output-buffer parsing and lifecycle
(src/subprocess/manager.ts), embedded shallowly from the TypeScript
source.  Strings are modelled as Lean strings or character lists;
loosely typed JavaScript values are modelled by an explicit value
universe; effects (the wall clock, timers, process signals) are passed
or emitted explicitly.
-/

/-- Boolean substring test on character lists: `hasSubstr pat s` is true
when `pat` occurs contiguously inside `s`.  Models the JavaScript
builtin `String.prototype.includes`. -/
def hasSubstr (pat : List Char) : List Char → Bool
  | [] => pat.isEmpty
  | c :: cs => pat.isPrefixOf (c :: cs) || hasSubstr pat cs

/-- `strIncludes s pat`: does the string `s` contain `pat` as a
contiguous substring?  Models `s.includes(pat)` from JavaScript. -/
def strIncludes (s pat : String) : Bool :=
  hasSubstr pat.data s.data

/-- The three backend model aliases (`ClaudeModel` in
src/adapter/openai-to-cli.ts). -/
inductive ClaudeModel where
  | opus
  | sonnet
  | haiku
deriving DecidableEq, Repr

/-- The fixed alias table `MODEL_MAP` from src/adapter/openai-to-cli.ts,
in source order: direct model names, provider-prefixed variants,
claude-max variants, and bare aliases. -/
def MODEL_MAP : List (String × ClaudeModel) := [
  ("claude-opus-4", .opus),
  ("claude-opus-4-6", .opus),
  ("claude-sonnet-4", .sonnet),
  ("claude-sonnet-4-5", .sonnet),
  ("claude-haiku-4", .haiku),
  ("claude-code-cli/claude-opus-4", .opus),
  ("claude-code-cli/claude-opus-4-6", .opus),
  ("claude-code-cli/claude-sonnet-4", .sonnet),
  ("claude-code-cli/claude-sonnet-4-5", .sonnet),
  ("claude-code-cli/claude-haiku-4", .haiku),
  ("claude-max/claude-opus-4-6", .opus),
  ("claude-max/claude-sonnet-4-5", .sonnet),
  ("opus", .opus),
  ("sonnet", .sonnet),
  ("haiku", .haiku),
  ("opus-max", .opus),
  ("sonnet-max", .sonnet)]

/-- `model.replace(/^claude-code-cli\//, "")`: strip the known provider
marker from the front of the identifier, if present. -/
def stripProvider (model : String) : String :=
  if List.isPrefixOf "claude-code-cli/".data model.data then
    String.mk (model.data.drop "claude-code-cli/".data.length)
  else
    model

/-- `extractModel` from src/adapter/openai-to-cli.ts: exact table
lookup, then lookup after stripping the provider marker, then the
`opus` default. -/
def extractModel (model : String) : ClaudeModel :=
  match MODEL_MAP.lookup model with
  | some m => m
  | none =>
    match MODEL_MAP.lookup (stripProvider model) with
    | some m => m
    | none => .opus

/-- A message role (`OpenAIChatMessage.role` in src/types/openai.ts). -/
inductive Role where
  | system
  | developer
  | user
  | assistant
deriving DecidableEq, Repr

/-- One content part of a multimodal message (`OpenAIContentPart` in
src/types/openai.ts): a text part or an image-URL part. -/
inductive ContentPart where
  | text (t : String)
  | image (url : String)
deriving DecidableEq, Repr

/-- Message content (`OpenAIChatMessage.content`): a plain string or an
ordered sequence of content parts. -/
inductive MsgContent where
  | str (s : String)
  | parts (l : List ContentPart)
deriving DecidableEq, Repr

/-- A chat message (`OpenAIChatMessage` in src/types/openai.ts). -/
structure ChatMessage where
  role : Role
  content : MsgContent
deriving DecidableEq, Repr

/-- An inbound chat request (`OpenAIChatRequest` in src/types/openai.ts,
restricted to the fields the encoder reads). -/
structure OpenAIChatRequest where
  model : String
  messages : List ChatMessage
  user : Option String := none
deriving Repr

/-- JavaScript `line.trim()` on a character list: drop whitespace from
both ends. -/
def trimChars (s : List Char) : List Char :=
  ((s.dropWhile Char.isWhitespace).reverse.dropWhile Char.isWhitespace).reverse

/-- JavaScript `s.trim()` on a string, via the character-list trim. -/
def jsTrim (s : String) : String :=
  String.mk (trimChars s.data)

/-- `extractTextContent` from src/adapter/openai-to-cli.ts: a string
passes through; an array keeps its text parts' text fields, joined by a
newline. -/
def extractTextContent (content : MsgContent) : String :=
  match content with
  | .str s => s
  | .parts l =>
    String.intercalate "\n" (l.filterMap fun p =>
      match p with
      | .text t => some t
      | .image _ => none)

/-- The previous-response marker the encoder wraps assistant content in
(src/adapter/openai-to-cli.ts, assistant case). -/
def wrapPreviousResponse (t : String) : String :=
  "<previous_response>\n" ++ t ++ "\n</previous_response>\n"

/-- The accumulation loop of `extractMessagesContent`: walks the
messages in order, pushing system/developer text onto the system list
and user/assistant text (the latter wrapped in the previous-response
marker) onto the conversation list. -/
def collectMessages : List ChatMessage → List String × List String
  | [] => ([], [])
  | m :: rest =>
    let (sys, conv) := collectMessages rest
    let text := extractTextContent m.content
    match m.role with
    | .system => (text :: sys, conv)
    | .developer => (text :: sys, conv)
    | .user => (sys, text :: conv)
    | .assistant => (sys, wrapPreviousResponse text :: conv)

/-- `extractMessagesContent` from src/adapter/openai-to-cli.ts: returns
the optional system-instruction string (system/developer parts joined by
a blank line, trimmed; absent when there were none) and the conversation
prompt (user parts and wrapped assistant parts joined by newline,
trimmed). -/
def extractMessagesContent (messages : List ChatMessage) :
    Option String × String :=
  let (systemParts, conversationParts) := collectMessages messages
  (if systemParts.isEmpty then none
   else some (jsTrim (String.intercalate "\n\n" systemParts)),
   jsTrim (String.intercalate "\n" conversationParts))

/-- The encoder's output (`CliInput` in src/adapter/openai-to-cli.ts). -/
structure CliInput where
  prompt : String
  model : ClaudeModel
  sessionId : Option String
  systemPrompt : Option String
deriving Repr

/-- `openaiToCli` from src/adapter/openai-to-cli.ts. -/
def openaiToCli (request : OpenAIChatRequest) : CliInput :=
  let (systemPrompt, conversationPrompt) :=
    extractMessagesContent request.messages
  { prompt := conversationPrompt
    model := extractModel request.model
    sessionId := request.user
    systemPrompt := systemPrompt }

/-- A universe of JavaScript values, as far as the decoder's defensive
stringifier can observe them: strings, null, undefined, numbers,
booleans, arrays and plain objects (association lists of fields). -/
inductive JsValue where
  | vstr (s : String)
  | vnull
  | vundefined
  | vnum (n : Int)
  | vbool (b : Bool)
  | varr (items : List JsValue)
  | vobj (fields : List (String × JsValue))

/-- JavaScript truthiness of a value (`item && ...`). -/
def JsValue.truthy : JsValue → Bool
  | .vstr s => !(s.isEmpty)
  | .vnull => false
  | .vundefined => false
  | .vnum n => n != 0
  | .vbool b => b
  | .varr _ => true
  | .vobj _ => true

/-- Does `typeof v === "object"` hold?  In JavaScript this is true for
null, arrays and plain objects. -/
def JsValue.typeofObject : JsValue → Bool
  | .vnull => true
  | .varr _ => true
  | .vobj _ => true
  | _ => false

/-- JavaScript property access `v.key`: defined only on plain objects
here (array index properties and methods are not observed by the
decoder), otherwise undefined (`none`). -/
def JsValue.getProp (v : JsValue) (key : String) : Option JsValue :=
  match v with
  | .vobj fields => fields.lookup key
  | _ => none

/-- Escape one character for a JSON string literal (model of the
JSON.stringify builtin's string escaping). -/
def jsonEscapeChar (c : Char) : String :=
  if c = '\\' then "\\\\"
  else if c = '"' then "\\\""
  else if c = '\n' then "\\n"
  else if c = '\t' then "\\t"
  else if c = '\r' then "\\r"
  else String.singleton c

/-- Serialize a string to a JSON string literal (model of the
JSON.stringify builtin). -/
def jsonQuote (s : String) : String :=
  "\"" ++ String.join (s.data.map jsonEscapeChar) ++ "\""

mutual

/-- Model of the `JSON.stringify` builtin over the observed value
universe (an undefined value, which the builtin would omit or map to
null depending on position, is rendered as null; the decoder only ever
applies this function to plain objects). -/
def jsonStringify : JsValue → String
  | .vstr s => jsonQuote s
  | .vnull => "null"
  | .vundefined => "null"
  | .vnum n => toString n
  | .vbool b => if b then "true" else "false"
  | .varr items => "[" ++ String.intercalate "," (jsonStringifyList items) ++ "]"
  | .vobj fields => "\x7b" ++ String.intercalate "," (jsonStringifyFields fields) ++ "\x7d"

/-- Serialize the elements of a JSON array. -/
def jsonStringifyList : List JsValue → List String
  | [] => []
  | v :: vs => jsonStringify v :: jsonStringifyList vs

/-- Serialize the fields of a JSON object. -/
def jsonStringifyFields : List (String × JsValue) → List String
  | [] => []
  | (k, v) :: fs => (jsonQuote k ++ ":" ++ jsonStringify v) :: jsonStringifyFields fs

end

/-- The filter applied by `ensureString` to each element of a content
array: `item && typeof item === "object" && item.type === "text" &&
typeof item.text === "string"`, and on success the item's `text`
field.  (src/adapter/cli-to-openai.ts, array branch.) -/
def textBlockText (item : JsValue) : Option String :=
  if item.truthy && item.typeofObject then
    match item.getProp "type" with
    | some (.vstr ty) =>
      if ty = "text" then
        match item.getProp "text" with
        | some (.vstr t) => some t
        | _ => none
      else none
    | _ => none
  else none

/-- `String(value)` for the remaining primitive cases reached by
`ensureString`'s last line (numbers and booleans). -/
def jsToString : JsValue → String
  | .vnum n => toString n
  | .vbool b => if b then "true" else "false"
  | .vstr s => s
  | .vnull => "null"
  | .vundefined => "undefined"
  | .varr _ => ""
  | .vobj _ => "[object Object]"

/-- `ensureString` from src/adapter/cli-to-openai.ts: the defensive
stringifier.  Strings pass through; null/undefined becomes the empty
string; arrays have their well-formed text blocks' text concatenated;
any other object is JSON-stringified; remaining primitives go through
`String(value)`. -/
def ensureString (value : JsValue) : String :=
  match value with
  | .vstr s => s
  | .vnull => ""
  | .vundefined => ""
  | .varr items => String.join (items.filterMap textBlockText)
  | .vobj fields => jsonStringify (.vobj fields)
  | v => jsToString v

/-- `normalizeModelName` from src/adapter/cli-to-openai.ts: a falsy
model (undefined or the empty string) becomes the sonnet default;
otherwise substring match against opus/sonnet/haiku; otherwise the
identifier passes through unchanged. -/
def normalizeModelName (model : Option String) : String :=
  match model with
  | none => "claude-sonnet-4"
  | some m =>
    if m = "" then "claude-sonnet-4"
    else if strIncludes m "opus" then "claude-opus-4"
    else if strIncludes m "sonnet" then "claude-sonnet-4"
    else if strIncludes m "haiku" then "claude-haiku-4"
    else m

/-- Token usage as reported by the CLI result event (`usage` field; the
counts may be absent). -/
structure CliUsage where
  input_tokens : Option Nat
  output_tokens : Option Nat
deriving Repr

/-- The CLI's terminal result event, as read by the decoder
(src/adapter/cli-to-openai.ts): the `result` payload (loosely typed),
the optional `usage` object, and the optional `modelUsage` object
abstracted to its ordered key list. -/
structure ClaudeCliResult where
  result : JsValue
  usage : Option CliUsage
  modelUsage : Option (List String)

/-- One choice's message in the outbound response. -/
structure RespMessage where
  role : String
  content : String
deriving DecidableEq, Repr

/-- One choice of the outbound response (`OpenAIChatResponseChoice`). -/
structure RespChoice where
  index : Nat
  message : RespMessage
  finish_reason : String
deriving DecidableEq, Repr

/-- The outbound non-streaming response (`OpenAIChatResponse`), with the
usage totals inlined. -/
structure OpenAIChatResponse where
  id : String
  object : String
  created : Nat
  model : String
  choices : List RespChoice
  prompt_tokens : Nat
  completion_tokens : Nat
  total_tokens : Nat
deriving Repr

/-- `cliResultToOpenai` from src/adapter/cli-to-openai.ts.  The wall
clock (`Date.now()` in seconds) is passed explicitly as `now`. -/
def cliResultToOpenai (result : ClaudeCliResult) (requestId : String)
    (now : Nat) : OpenAIChatResponse :=
  let modelName : Option String :=
    match result.modelUsage with
    | some keys => keys.head?
    | none => some "claude-sonnet-4"
  let content := ensureString result.result
  let inTok := (result.usage.bind (fun u => u.input_tokens)).getD 0
  let outTok := (result.usage.bind (fun u => u.output_tokens)).getD 0
  { id := "chatcmpl-" ++ requestId
    object := "chat.completion"
    created := now
    model := normalizeModelName modelName
    choices := [{ index := 0
                  message := { role := "assistant", content := content }
                  finish_reason := "stop" }]
    prompt_tokens := inTok
    completion_tokens := outTok
    total_tokens := inTok + outTok }

/-- JavaScript `buffer.split("\n")` followed by `lines.pop()`, modelled
on character lists: returns the complete lines (the segments before each
newline, in order) and the trailing fragment after the last newline
(the whole input when it holds no newline). -/
def splitNl : List Char → List (List Char) × List Char
  | [] => ([], [])
  | c :: cs =>
    let (ls, f) := splitNl cs
    if c = '\n' then
      ([] :: ls, f)
    else
      match ls with
      | [] => ([], c :: f)
      | l :: r => ((c :: l) :: r, f)

/-- The events `processBuffer` can emit per line
(src/subprocess/manager.ts): the generic `message` event carrying every
parsed JSON line, the refining typed events (`content_delta`,
`assistant`, `result`), and `raw` for a line that fails to parse as
JSON.  `J` is the type of parsed CLI messages. -/
inductive PEvent (J : Type) where
  | message (m : J)
  | contentDelta (m : J)
  | assistant (m : J)
  | result (m : J)
  | raw (line : List Char)
deriving DecidableEq, Repr

/-- The refining typed event emitted after the generic `message` event:
the first matching classifier among `isContentDelta`,
`isAssistantMessage`, `isResultMessage` wins; an unrecognized parsed
message gets no typed event. -/
def typedEvents {J : Type} (isContentDelta isAssistantMessage isResultMessage : J → Bool)
    (m : J) : List (PEvent J) :=
  if isContentDelta m then [.contentDelta m]
  else if isAssistantMessage m then [.assistant m]
  else if isResultMessage m then [.result m]
  else []

/-- The per-line body of `processBuffer`'s loop: trim the line, skip it
when blank, otherwise JSON-parse it and emit the `message` event plus
its typed refinement, or the `raw` event when parsing fails.  `parse`
abstracts the JSON.parse builtin composed with the ClaudeCliMessage
reading. -/
def lineEvents {J : Type} (parse : List Char → Option J)
    (isContentDelta isAssistantMessage isResultMessage : J → Bool)
    (line : List Char) : List (PEvent J) :=
  let trimmed := trimChars line
  if trimmed.isEmpty then []
  else
    match parse trimmed with
    | some m =>
      .message m :: typedEvents isContentDelta isAssistantMessage isResultMessage m
    | none => [.raw trimmed]

/-- `processBuffer` acting on an explicit buffer after one stdout chunk
arrives (src/subprocess/manager.ts): append the chunk, split on
newlines, keep the incomplete trailing fragment as the new buffer, and
emit the events of every complete line in order. -/
def processChunk {J : Type} (parse : List Char → Option J)
    (isContentDelta isAssistantMessage isResultMessage : J → Bool)
    (buffer chunk : List Char) : List (PEvent J) × List Char :=
  let (lines, rest) := splitNl (buffer ++ chunk)
  (lines.flatMap (lineEvents parse isContentDelta isAssistantMessage isResultMessage), rest)

/-- Deliver a sequence of stdout chunks one at a time, threading the
buffer, and collect all emitted events in order. -/
def processChunks {J : Type} (parse : List Char → Option J)
    (isContentDelta isAssistantMessage isResultMessage : J → Bool)
    (buffer : List Char) : List (List Char) → List (PEvent J) × List Char
  | [] => ([], buffer)
  | c :: cs =>
    let (evs, b1) := processChunk parse isContentDelta isAssistantMessage isResultMessage buffer c
    let (evs2, b2) := processChunks parse isContentDelta isAssistantMessage isResultMessage b1 cs
    (evs ++ evs2, b2)

/-- The lifecycle state of one `ClaudeSubprocess` after `start` has
spawned the process (src/subprocess/manager.ts): whether this manager
has already killed the process (`isKilled`) and whether the deadline
timer is still pending (`timeoutId !== null` and not yet fired). -/
structure ManagerState where
  isKilled : Bool
  timerActive : Bool
deriving DecidableEq, Repr

/-- Lifecycle steps that can happen to a running subprocess, in any
order: the deadline timer firing, an explicit `kill()` call, and the
process's `close` event. -/
inductive ManagerAction where
  | timerFire
  | killCall
  | close
deriving DecidableEq, Repr

/-- Observable outputs of the lifecycle steps: a termination signal sent
to the process, the timeout error emitted to listeners, and the `close`
event forwarded to listeners. -/
inductive ManagerOut where
  | killSignal
  | timeoutError
  | closeEvent
deriving DecidableEq, Repr

/-- The state after `start` succeeds: not killed, deadline timer armed. -/
def initialManagerState : ManagerState :=
  { isKilled := false, timerActive := true }

/-- One lifecycle step (src/subprocess/manager.ts).  The timer callback
fires only while the timer is pending and is consumed by firing; inside
it, the `isKilled` guard protects the kill and the timeout error.
`kill()` is guarded by `isKilled` and clears the timer.  The `close`
handler clears the timer and forwards the event (it does not mark the
process killed). -/
def managerStep (s : ManagerState) : ManagerAction → ManagerState × List ManagerOut
  | .timerFire =>
    if s.timerActive then
      if !s.isKilled then
        ({ isKilled := true, timerActive := false },
         [.killSignal, .timeoutError])
      else
        ({ s with timerActive := false }, [])
    else (s, [])
  | .killCall =>
    if !s.isKilled then
      ({ isKilled := true, timerActive := false }, [.killSignal])
    else (s, [])
  | .close =>
    ({ s with timerActive := false }, [.closeEvent])

/-- Run a sequence of lifecycle steps, collecting all outputs. -/
def managerRun (s : ManagerState) : List ManagerAction → ManagerState × List ManagerOut
  | [] => (s, [])
  | a :: rest =>
    let (s1, out1) := managerStep s a
    let (s2, out2) := managerRun s1 rest
    (s2, out1 ++ out2)

/-- The distinguished error message for a missing executable
(src/subprocess/manager.ts, spawn error handler). -/
def claudeNotFoundMessage : String :=
  "Claude CLI not found. Install with: npm install -g @anthropic-ai/claude-code"

/-- The spawn error handler of `start` (src/subprocess/manager.ts):
clears the deadline timer, then rejects with the distinguished
not-found error when the underlying message mentions ENOENT, and with
the underlying error unchanged otherwise.  Returned as (timer still
active, rejection message). -/
def handleSpawnError (s : ManagerState) (errMessage : String) :
    ManagerState × String :=
  ({ s with timerActive := false },
   if strIncludes errMessage "ENOENT" then claudeNotFoundMessage
   else errMessage)

/-- `DEFAULT_TIMEOUT` from src/subprocess/manager.ts (milliseconds). -/
def DEFAULT_TIMEOUT : Int := 300000

/-- `options.timeout || DEFAULT_TIMEOUT` from `start`: an absent
timeout, or the falsy timeout 0, is replaced by the default; every
other number — positive or negative — is kept. -/
def effectiveTimeout (timeout : Option Int) : Int :=
  match timeout with
  | none => DEFAULT_TIMEOUT
  | some t => if t = 0 then DEFAULT_TIMEOUT else t

/-- One content block of a structured stdin line: text, or an image
with a media type and base64 payload. -/
inductive StreamBlock where
  | text (t : String)
  | image (mediaType : String) (base64Data : String)
deriving DecidableEq, Repr

/-- Does a message contain at least one image content part? -/
def messageHasImage (m : ChatMessage) : Bool :=
  match m.content with
  | .str _ => false
  | .parts l => l.any fun p =>
      match p with
      | .image _ => true
      | .text _ => false

/-- Does any message of the request contain an image content part? -/
def requestHasImage (messages : List ChatMessage) : Bool :=
  messages.any messageHasImage

/-- Modelled from the spec: the route layer's collapsing of all
messages into the single structured stdin line used in StreamMessages
mode (the code that builds `stdinMessages` lives in the route layer,
which is not part of the provided sources).  Content blocks are the
concatenation, in message order, of system text wrapped in a system
marker, assistant text wrapped in the previous-response marker, and
user content blocks as-is; when normalization yields no blocks a single
empty text block is emitted. -/
def collapseToBlocks (messages : List ChatMessage) : List StreamBlock :=
  let blocks := messages.flatMap fun m =>
    match m.role with
    | .system =>
      [.text ("<system>\n" ++ extractTextContent m.content ++ "\n</system>")]
    | .developer =>
      [.text ("<system>\n" ++ extractTextContent m.content ++ "\n</system>")]
    | .assistant =>
      [.text (wrapPreviousResponse (extractTextContent m.content))]
    | .user =>
      match m.content with
      | .str s => [.text s]
      | .parts l => l.map fun p =>
          match p with
          | .text t => StreamBlock.text t
          | .image url => StreamBlock.image "image" url
  if blocks.isEmpty then [.text ""] else blocks

/-- Modelled from the spec: the route layer builds `stdinMessages` —
one collapsed structured line — exactly when some message contains an
image part, and omits them (undefined) otherwise. -/
def buildStdinMessages (messages : List ChatMessage) :
    Option (List (List StreamBlock)) :=
  if requestHasImage messages then some [collapseToBlocks messages]
  else none

/-- The two input encodings of the backend invocation. -/
inductive InputMode where
  | textArgument
  | streamMessages
deriving DecidableEq, Repr

/-- The mode selection inside `ClaudeSubprocess.start`
(src/subprocess/manager.ts): `useStreamInput = !!options.stdinMessages?.length`. -/
def selectMode {α : Type} (stdinMessages : Option (List α)) : InputMode :=
  match stdinMessages with
  | some (_ :: _) => .streamMessages
  | _ => .textArgument

/-- The mode a request ends up in: the route layer's stdin-message
construction composed with `start`'s selection. -/
def requestMode (messages : List ChatMessage) : InputMode :=
  selectMode (buildStdinMessages messages)

/-- How the complete lines of a concatenation arise: the left part's
trailing fragment is glued onto the right part's first complete line. -/
def glueLines (fa : List Char) (lb : List (List Char)) : List (List Char) :=
  match lb with
  | [] => []
  | l :: r => (fa ++ l) :: r

/-- The trailing fragment of a concatenation: the right part's fragment,
prefixed by the left part's fragment when the right part has no complete
line. -/
def glueFrag (fa : List Char) (lb : List (List Char)) (fb : List Char) : List Char :=
  match lb with
  | [] => fa ++ fb
  | _ :: _ => fb

/-- The per-line classification events: the generic `message` emission
(carrying every successfully parsed line) and `raw` (carrying every
non-JSON line); the typed events refine a `message` and are excluded. -/
def isPrimaryEvent {J : Type} : PEvent J → Bool
  | .message _ => true
  | .raw _ => true
  | _ => false

/-- The system-instruction contribution of one message: system and
developer content, in order. -/
def systemPartOf (m : ChatMessage) : Option String :=
  match m.role with
  | .system => some (extractTextContent m.content)
  | .developer => some (extractTextContent m.content)
  | _ => none

/-- The conversation-text contribution of one message: user content
as-is, assistant content wrapped in the previous-response marker. -/
def conversationPartOf (m : ChatMessage) : Option String :=
  match m.role with
  | .user => some (extractTextContent m.content)
  | .assistant => some (wrapPreviousResponse (extractTextContent m.content))
  | _ => none

/-- How many kill signals this manager may still send: none once it has
already killed the process. -/
def killBudget (s : ManagerState) : Nat :=
  if s.isKilled then 0 else 1

/-- How many timeout errors this manager may still raise: none once the
deadline timer is gone. -/
def timeoutBudget (s : ManagerState) : Nat :=
  if s.timerActive then 1 else 0

/-- The single-turn, text-only, single-user-message request of the
round-trip property. -/
def pingRequest : OpenAIChatRequest :=
  { model := "claude-opus-4"
    messages := [{ role := .user, content := .str "ping" }] }

/-- The one-line terminal result event whose `result` payload is the
string "pong". -/
def pongResult : ClaudeCliResult :=
  { result := .vstr "pong", usage := none, modelUsage := none }

theorem splitNl_append (a b : List Char) :
    splitNl (a ++ b) =
      ((splitNl a).1 ++ glueLines (splitNl a).2 (splitNl b).1,
       glueFrag (splitNl a).2 (splitNl b).1 (splitNl b).2) := by
  induction a with
  | nil =>
    rcases hb : splitNl b with ⟨lb, fb⟩
    cases lb <;> simp [glueLines, glueFrag, splitNl, hb]
  | cons c cs ih =>
    rcases hcs : splitNl cs with ⟨la, fa⟩
    rcases hb : splitNl b with ⟨lb, fb⟩
    rw [hcs, hb] at ih
    simp only [List.cons_append, splitNl, ih, hcs, hb]
    by_cases hc : c = '\n'
    · subst hc
      cases lb <;> simp [glueLines, glueFrag, ih]
    · simp only [if_neg hc]
      cases la <;> cases lb <;> simp [glueLines, glueFrag, ih]

theorem splitNl_frag_no_newline (s : List Char) : '\n' ∉ (splitNl s).2 := by
  induction s with
  | nil => simp [splitNl]
  | cons c cs ih =>
    rcases hcs : splitNl cs with ⟨la, fa⟩
    rw [hcs] at ih
    simp only [splitNl, hcs]
    by_cases hc : c = '\n'
    · subst hc; simpa using ih
    · simp only [if_neg hc]
      cases la <;> simp_all
      exact fun h => hc h.symm

theorem splitNl_of_no_newline (s : List Char) (h : '\n' ∉ s) :
    splitNl s = ([], s) := by
  induction s with
  | nil => simp [splitNl]
  | cons c cs ih =>
    simp only [List.mem_cons, not_or] at h
    have hc : ¬(c = '\n') := fun hh => h.1 hh.symm
    simp [splitNl, ih h.2, hc]

theorem processChunk_append {J : Type} (parse : List Char → Option J)
    (d a r : J → Bool) (buf c1 c2 : List Char) :
    processChunk parse d a r buf (c1 ++ c2) =
      ((processChunk parse d a r buf c1).1 ++
         (processChunk parse d a r (processChunk parse d a r buf c1).2 c2).1,
       (processChunk parse d a r (processChunk parse d a r buf c1).2 c2).2) := by
  have hfrag := splitNl_frag_no_newline (buf ++ c1)
  rcases h1 : splitNl (buf ++ c1) with ⟨L1, F1⟩
  rw [h1] at hfrag
  have h2 : splitNl (F1 ++ c2) =
      (glueLines F1 (splitNl c2).1, glueFrag F1 (splitNl c2).1 (splitNl c2).2) := by
    rw [splitNl_append, splitNl_of_no_newline F1 hfrag]
    simp
  rcases hc2 : splitNl c2 with ⟨L2, F2⟩
  rw [hc2] at h2
  simp only [processChunk, ← List.append_assoc, splitNl_append (buf ++ c1) c2, h1, h2, hc2]
  cases L2 <;> simp [glueLines, glueFrag]

theorem processChunks_eq_single {J : Type} (parse : List Char → Option J)
    (d a r : J → Bool) :
    ∀ (chunks : List (List Char)) (buf : List Char), '\n' ∉ buf →
      processChunks parse d a r buf chunks =
        processChunk parse d a r buf chunks.flatten := by
  intro chunks
  induction chunks with
  | nil =>
    intro buf hbuf
    simp [processChunks, processChunk, List.flatten,
      splitNl_of_no_newline buf hbuf]
  | cons c cs ih =>
    intro buf hbuf
    have hb1 : '\n' ∉ (processChunk parse d a r buf c).2 := by
      simp only [processChunk]
      exact splitNl_frag_no_newline (buf ++ c)
    simp only [processChunks, List.flatten_cons,
      processChunk_append parse d a r buf c cs.flatten, ih _ hb1]

theorem typedEvents_primary_filter {J : Type} (d a r : J → Bool) (m : J) :
    (typedEvents d a r m).filter isPrimaryEvent = [] := by
  simp only [typedEvents]
  split_ifs <;> simp [isPrimaryEvent]

theorem lineEvents_primary_count {J : Type} (parse : List Char → Option J)
    (d a r : J → Bool) (line : List Char) :
    ((lineEvents parse d a r line).filter isPrimaryEvent).length =
      if trimChars line = [] then 0 else 1 := by
  simp only [lineEvents]
  by_cases h : trimChars line = []
  · simp [h]
  · have hne : ((trimChars line).isEmpty) = false := by
      simpa [List.isEmpty_iff] using h
    simp only [hne, if_neg h, Bool.false_eq_true, if_false]
    cases hp : parse (trimChars line) with
    | none => simp [isPrimaryEvent]
    | some m => simp [isPrimaryEvent, typedEvents_primary_filter]

theorem flatMap_primary_count {J : Type} (parse : List Char → Option J)
    (d a r : J → Bool) (L : List (List Char)) :
    ((L.flatMap (lineEvents parse d a r)).filter isPrimaryEvent).length =
      (L.filter (fun l => !(trimChars l).isEmpty)).length := by
  induction L with
  | nil => simp
  | cons l rest ih =>
    simp only [List.flatMap_cons, List.filter_append, List.length_append, ih,
      List.filter_cons]
    by_cases h : trimChars l = []
    · have : ((trimChars l).isEmpty) = true := by simpa [List.isEmpty_iff] using h
      simp [lineEvents_primary_count, h, this]
    · have : ((trimChars l).isEmpty) = false := by simpa [List.isEmpty_iff] using h
      simp [lineEvents_primary_count, h, this, Nat.add_comm]

theorem collectMessages_eq_filterMap (messages : List ChatMessage) :
    collectMessages messages =
      (messages.filterMap systemPartOf, messages.filterMap conversationPartOf) := by
  induction messages with
  | nil => simp [collectMessages]
  | cons m rest ih =>
    rcases m with ⟨role, content⟩
    cases role <;>
      simp [collectMessages, ih, systemPartOf, conversationPartOf]

theorem managerRun_budgets (acts : List ManagerAction) :
    ∀ s : ManagerState,
      (managerRun s acts).2.count ManagerOut.killSignal ≤ killBudget s ∧
      (managerRun s acts).2.count ManagerOut.timeoutError ≤ timeoutBudget s := by
  induction acts with
  | nil => intro s; simp [managerRun]
  | cons a rest ih =>
    intro s
    rcases s with ⟨k, t⟩
    have h00 := ih ⟨false, false⟩
    have h01 := ih ⟨false, true⟩
    have h10 := ih ⟨true, false⟩
    have h11 := ih ⟨true, true⟩
    cases a <;> cases k <;> cases t <;>
      simp_all [managerRun, managerStep, killBudget, timeoutBudget,
        List.count_append, List.count_cons]

/-- C1: for every sequence of stdout byte chunks fed to the subprocess
manager's buffer-parsing step (starting from the empty buffer of a
fresh subprocess), delivering the bytes chunk by chunk produces exactly
the same classified event sequence, and leaves exactly the same retained
trailing fragment, as delivering all the bytes as one single chunk —
for every JSON parser and every set of message classifiers. -/
theorem chunk_boundary_independence {J : Type} (parse : List Char → Option J)
    (isContentDelta isAssistantMessage isResultMessage : J → Bool)
    (chunks : List (List Char)) :
    processChunks parse isContentDelta isAssistantMessage isResultMessage [] chunks =
      processChunk parse isContentDelta isAssistantMessage isResultMessage []
        chunks.flatten :=
  processChunks_eq_single parse isContentDelta isAssistantMessage isResultMessage
    chunks [] (by simp)

/-- C2: every complete line whose trimmed text is non-empty produces
exactly one classification event (the `message` event for a line that
parses as JSON — refined by at most one typed delta/assistant/result
event — or the `raw` event for a line that does not), a blank line
produces none, a malformed line is classified `raw` rather than
aborting (the classifier is a total function), and over a whole chunk
the classification events number exactly the non-blank complete lines,
in line order. -/
theorem line_event_discipline {J : Type} (parse : List Char → Option J)
    (isContentDelta isAssistantMessage isResultMessage : J → Bool) :
    (∀ line : List Char,
      ((lineEvents parse isContentDelta isAssistantMessage isResultMessage line).filter
          isPrimaryEvent).length =
        if trimChars line = [] then 0 else 1) ∧
    (∀ line : List Char, trimChars line ≠ [] →
      parse (trimChars line) = none →
      lineEvents parse isContentDelta isAssistantMessage isResultMessage line =
        [.raw (trimChars line)]) ∧
    (∀ buf chunk : List Char,
      (((processChunk parse isContentDelta isAssistantMessage isResultMessage
            buf chunk).1).filter isPrimaryEvent).length =
        (((splitNl (buf ++ chunk)).1).filter
          (fun l => !(trimChars l).isEmpty)).length) := by
  refine ⟨lineEvents_primary_count parse _ _ _, ?_, ?_⟩
  · intro line hne hp
    have h : ((trimChars line).isEmpty) = false := by
      simpa [List.isEmpty_iff] using hne
    simp [lineEvents, h, hp]
  · intro buf chunk
    simp only [processChunk]
    exact flatMap_primary_count parse _ _ _ (splitNl (buf ++ chunk)).1

/-- Witness for C2 at a concrete malformed line: the line
"Execution error" does not parse, is trimmed and classified raw, and
counts as exactly one classification event. -/
theorem line_event_discipline_witness :
    lineEvents (fun _ => (none : Option Unit)) (fun _ => false) (fun _ => false)
        (fun _ => false) " Execution error ".data =
      [.raw "Execution error".data] := by
  have h := (line_event_discipline (fun _ => (none : Option Unit))
    (fun _ => false) (fun _ => false) (fun _ => false)).2.1
    " Execution error ".data (by decide) rfl
  rw [h]
  decide

/-- C3: every identifier in the alias table resolves to its documented
alias; an identifier missing from the table but whose
provider-stripped form is present resolves to that entry; an
identifier that misses both lookups resolves to the `opus` default —
and resolution is a total function, so it never fails. -/
theorem model_resolution :
    (∀ p ∈ MODEL_MAP, extractModel p.1 = p.2) ∧
    (∀ s : String, ∀ m : ClaudeModel, MODEL_MAP.lookup s = none →
      MODEL_MAP.lookup (stripProvider s) = some m → extractModel s = m) ∧
    (∀ s : String, MODEL_MAP.lookup s = none →
      MODEL_MAP.lookup (stripProvider s) = none → extractModel s = .opus) := by
  refine ⟨by decide, ?_, ?_⟩
  · intro s m h1 h2
    simp [extractModel, h1, h2]
  · intro s h1 h2
    simp [extractModel, h1, h2]

/-- Witness for C3: a versioned identifier, a provider-prefixed
identifier that needs stripping, and an unknown identifier. -/
theorem model_resolution_witness :
    extractModel "claude-sonnet-4-5" = ClaudeModel.sonnet ∧
    extractModel "claude-code-cli/opus-max" = ClaudeModel.opus ∧
    extractModel "gpt-4o" = ClaudeModel.opus :=
  ⟨model_resolution.1 ("claude-sonnet-4-5", ClaudeModel.sonnet) (by decide),
   model_resolution.2.1 "claude-code-cli/opus-max" ClaudeModel.opus
     (by decide) (by decide),
   model_resolution.2.2 "gpt-4o" (by decide) (by decide)⟩

/-- C4: encoding the single-turn, text-only, single-user-message "ping"
request yields the prompt "ping" (under the opus alias, with no system
prompt), and decoding a result event whose `result` field equals
"pong" produces an outbound response whose only choice carries message
content "pong" and finish reason "stop". -/
theorem roundtrip_pong (requestId : String) (now : Nat) :
    (openaiToCli pingRequest).prompt = "ping" ∧
    (openaiToCli pingRequest).model = ClaudeModel.opus ∧
    (openaiToCli pingRequest).systemPrompt = none ∧
    ((cliResultToOpenai pongResult requestId now).choices.map
        fun c => (c.message.content, c.finish_reason)) = [("pong", "stop")] := by
  refine ⟨by decide, by decide, by decide, ?_⟩
  simp [cliResultToOpenai, pongResult, ensureString]

/-- C5: the defensive stringifier follows its fallback ladder — a
string passes through unchanged, null and undefined become the empty
string, an array keeps exactly its well-formed text blocks (objects
whose `type` property is the string "text" and whose `text` property is
a string), concatenated in order with the empty-string join, and any
other object is JSON-stringified; the decoder's outbound content field
is always the stringifier's output (a plain string by type). -/
theorem defensive_stringifier (s : String) (items : List JsValue)
    (fields : List (String × JsValue)) (r : ClaudeCliResult)
    (requestId : String) (now : Nat) :
    ensureString (.vstr s) = s ∧
    ensureString .vnull = "" ∧
    ensureString .vundefined = "" ∧
    ensureString (.varr items) = String.join (items.filterMap textBlockText) ∧
    (∀ item : JsValue, ∀ t : String, textBlockText item = some t ↔
      ∃ f : List (String × JsValue), item = .vobj f ∧
        f.lookup "type" = some (.vstr "text") ∧
        f.lookup "text" = some (.vstr t)) ∧
    ensureString (.vobj fields) = jsonStringify (.vobj fields) ∧
    ((cliResultToOpenai r requestId now).choices.map fun c => c.message.content)
      = [ensureString r.result] := by
  refine ⟨rfl, rfl, rfl, rfl, ?_, rfl, rfl⟩
  intro item t
  cases item <;>
    simp [textBlockText, JsValue.truthy, JsValue.typeofObject, JsValue.getProp]
  case vobj f =>
    cases hty : f.lookup "type" with
    | none => simp
    | some v =>
      cases v <;> simp
      intro h
      cases htx : f.lookup "text" with
      | none => simp
      | some w => cases w <;> simp

/-- Witness for C5: a content-block array with two well-formed text
blocks, a null entry, a bare string and an unrecognized block reduces
to the concatenation of the two text fields. -/
theorem defensive_stringifier_witness :
    ensureString (JsValue.varr
      [JsValue.vobj [("type", JsValue.vstr "text"), ("text", JsValue.vstr "po")],
       JsValue.vnull, JsValue.vstr "skipped",
       JsValue.vobj [("type", JsValue.vstr "tool_use")],
       JsValue.vobj [("type", JsValue.vstr "text"), ("text", JsValue.vstr "ng")]])
      = "pong" := by
  rw [(defensive_stringifier ""
      [JsValue.vobj [("type", JsValue.vstr "text"), ("text", JsValue.vstr "po")],
       JsValue.vnull, JsValue.vstr "skipped",
       JsValue.vobj [("type", JsValue.vstr "tool_use")],
       JsValue.vobj [("type", JsValue.vstr "text"), ("text", JsValue.vstr "ng")]]
      [] ⟨JsValue.vnull, none, none⟩ "" 0).2.2.2.1]
  rfl

/-- C6: over every sequence of lifecycle steps from the post-start
state, at most one kill signal is sent and at most one timeout error is
raised; the deadline timer's firing in the initial running state kills
the process and raises the timeout error in one step and disarms the
timer; the close handler always cancels the timer; and a kill call on
an already-killed manager is a no-op (state unchanged, nothing
emitted). -/
theorem lifecycle_kill_once (acts : List ManagerAction) (s : ManagerState)
    (hs : s.isKilled = true) :
    (managerRun initialManagerState acts).2.count ManagerOut.killSignal ≤ 1 ∧
    (managerRun initialManagerState acts).2.count ManagerOut.timeoutError ≤ 1 ∧
    managerStep initialManagerState .timerFire =
      ({ isKilled := true, timerActive := false },
       [.killSignal, .timeoutError]) ∧
    (∀ s2 : ManagerState, (managerStep s2 .close).1.timerActive = false) ∧
    managerStep s .killCall = (s, []) := by
  refine ⟨?_, ?_, by decide, fun s2 => rfl, ?_⟩
  · simpa [killBudget, initialManagerState] using
      (managerRun_budgets acts initialManagerState).1
  · simpa [timeoutBudget, initialManagerState] using
      (managerRun_budgets acts initialManagerState).2
  · simp [managerStep, hs]

/-- Witness for C6: the timer fires, then an explicit kill and a close
arrive; exactly one kill signal and one timeout error are observed, and
the late kill call is a no-op. -/
theorem lifecycle_kill_once_witness :
    (managerRun initialManagerState [.timerFire, .killCall, .close]).2.count
        ManagerOut.killSignal ≤ 1 ∧
    (managerRun initialManagerState [.timerFire, .killCall, .close]).2.count
        ManagerOut.timeoutError ≤ 1 ∧
    managerStep { isKilled := true, timerActive := false } .killCall =
      ({ isKilled := true, timerActive := false }, []) := by
  have h := lifecycle_kill_once [.timerFire, .killCall, .close]
    { isKilled := true, timerActive := false } rfl
  exact ⟨h.1, h.2.1, h.2.2.2.2⟩

/-- C7: the encoder partitions by role — the system instruction is
exactly the system and developer messages' text, in message order,
joined by a blank line (absent when there are none), and the
conversation text is exactly the user messages' text and the assistant
messages' text wrapped in the previous-response marker, in message
order, joined by newline (both trimmed). -/
theorem encoder_role_partition (messages : List ChatMessage) :
    extractMessagesContent messages =
      ((if (messages.filterMap systemPartOf).isEmpty then none
        else some (jsTrim (String.intercalate "\n\n"
          (messages.filterMap systemPartOf)))),
       jsTrim (String.intercalate "\n"
         (messages.filterMap conversationPartOf))) := by
  simp [extractMessagesContent, collectMessages_eq_filterMap]

/-- C8: a request none of whose messages contains an image content part
is started in text-argument mode; a request with at least one image
content part is started in stream-messages mode (the structured stdin
line construction is modelled from the spec, the start-side selection
from the source). -/
theorem mode_selection (messages : List ChatMessage) :
    (requestHasImage messages = false → requestMode messages = .textArgument) ∧
    (requestHasImage messages = true → requestMode messages = .streamMessages) := by
  constructor <;> intro h <;>
    simp [requestMode, buildStdinMessages, h, selectMode]

/-- Witness for C8: a text-only request selects the text-argument mode
and a request carrying a data-URI image selects stream-messages mode. -/
theorem mode_selection_witness :
    requestMode [⟨.user, .str "hello"⟩] = .textArgument ∧
    requestMode [⟨.user, .parts [.text "look",
      .image "data:image/png;base64,AAAA"]⟩] = .streamMessages :=
  ⟨(mode_selection [⟨.user, .str "hello"⟩]).1 (by decide),
   (mode_selection [⟨.user, .parts [.text "look",
      .image "data:image/png;base64,AAAA"]⟩]).2 (by decide)⟩

/-- C9: the spawn error handler always clears the deadline timer and
always rejects: an error mentioning ENOENT is replaced by the
distinguished not-found message (which names the missing tool and
carries the installation hint), any other error is surfaced
unchanged. -/
theorem spawn_error_surfacing (s : ManagerState) (msg : String) :
    ((handleSpawnError s msg).1.timerActive = false) ∧
    (strIncludes msg "ENOENT" = true →
      (handleSpawnError s msg).2 = claudeNotFoundMessage) ∧
    (strIncludes msg "ENOENT" = false → (handleSpawnError s msg).2 = msg) ∧
    strIncludes claudeNotFoundMessage "Claude CLI not found" = true ∧
    strIncludes claudeNotFoundMessage "npm install -g @anthropic-ai/claude-code" = true := by
  refine ⟨rfl, ?_, ?_, by decide, by decide⟩
  · intro h; simp [handleSpawnError, h]
  · intro h; simp [handleSpawnError, h]

/-- Witness for C9: an ENOENT spawn failure is rewritten to the
not-found hint; an EACCES failure passes through unchanged. -/
theorem spawn_error_surfacing_witness :
    (handleSpawnError initialManagerState "spawn claude ENOENT").2 =
      claudeNotFoundMessage ∧
    (handleSpawnError initialManagerState "spawn claude EACCES").2 =
      "spawn claude EACCES" :=
  ⟨(spawn_error_surfacing initialManagerState "spawn claude ENOENT").2.1 (by decide),
   (spawn_error_surfacing initialManagerState "spawn claude EACCES").2.2.1 (by decide)⟩

/-- C10 counterexample: the caller-supplied timeout -1 is not positive,
yet it is not replaced by the 300000 ms default — it overrides it —
refuting "only a positive caller-supplied timeout overrides the
default". -/
theorem timeout_negative_counterexample :
    effectiveTimeout (some (-1)) = -1 ∧
    (-1 : Int) ≠ DEFAULT_TIMEOUT ∧
    ¬(0 < (-1 : Int)) := by
  decide

/-- C10 (amended): an absent timeout, or the falsy timeout 0, is
silently replaced by the 300000 ms default; every nonzero
caller-supplied timeout — positive or negative — overrides the
default. -/
theorem timeout_default_substitution (t : Int) (ht : t ≠ 0) :
    effectiveTimeout none = DEFAULT_TIMEOUT ∧
    effectiveTimeout (some 0) = DEFAULT_TIMEOUT ∧
    effectiveTimeout (some t) = t := by
  refine ⟨rfl, rfl, ?_⟩
  simp [effectiveTimeout, ht]

/-- Witness for the amended C10 at the concrete timeout 60000. -/
theorem timeout_default_substitution_witness :
    effectiveTimeout (some 60000) = 60000 :=
  (timeout_default_substitution 60000 (by decide)).2.2
